import Mathlib

/-! Shallow embedding of the FinPulse pipeline (SEC-filing KPI extraction,
lexical RAG retrieval, narrative synthesis, report orchestration) and
verification of its specification claims.

Python sources embedded here:
  - src/finpulse/rag/indexer.py     (DocumentIndexer)
  - src/finpulse/ingest/edgar.py    (EdgarClient.extract_kpis and its helper)
  - src/finpulse/llm/gemini.py      (GeminiClient.summarize)
  - src/finpulse/report/generator.py (ReportGenerator.clear_cache)

Conventions: Python strings are Lean `String` (lower-casing is modelled at
ASCII level, which covers every string the code manipulates); Python dicts
read only through fixed keys become structures; dicts with dynamic keys
become association lists with first-match lookup (Python dict keys are
unique, so first match equals the dict lookup); `datetime.now()` enters the
code only via the cutoff `now - 730 days`, so the cutoff date is passed as
an explicit parameter; the external LLM call is an opaque collaborator and
its outcome (returned text or raised exception message) is an explicit
argument.  All functions are total Lean functions: the embedded code paths
raise no exceptions on the modelled inputs.
-/

/-! Generic string helpers (Python `in`, `lower`, `split`, `strip`) -/

/-- Python `needle in hay` contiguous-substring test, on character lists. -/
def listContainsSub (needle : List Char) : List Char → Bool
  | [] => needle.isEmpty
  | c :: rest => needle.isPrefixOf (c :: rest) || listContainsSub needle rest

/-- Python `needle in hay` on strings. -/
def strContains (hay needle : String) : Bool :=
  listContainsSub needle.data hay.data

/-- Propositional form: `needle` occurs contiguously inside `hay`. -/
def strOccurs (hay needle : String) : Prop :=
  ∃ s t, hay.data = s ++ needle.data ++ t

/-- Number of positions of `hay` at which `needle` occurs (used to count
"Sources" headings in a narrative). -/
def occurrencesOf (hay needle : String) : Nat :=
  ((List.range (hay.data.length + 1)).filter
    (fun i => needle.data.isPrefixOf (hay.data.drop i))).length

/-- Python `str.lower()` (ASCII case folding, which covers all strings the
code lower-cases: queries and filing text are treated bytewise). -/
def pyLower (s : String) : String := String.mk (s.data.map Char.toLower)

/-- Accumulator loop for Python `str.split()` with no argument: split on
whitespace runs and drop empty pieces. -/
def pySplitChars : List Char → List Char → List String
  | [], acc => if acc.isEmpty then [] else [String.mk acc.reverse]
  | c :: rest, acc =>
    if c.isWhitespace then
      (if acc.isEmpty then [] else [String.mk acc.reverse]) ++
        pySplitChars rest []
    else pySplitChars rest (c :: acc)

/-- Python `str.split()` with no argument. -/
def pySplit (s : String) : List String := pySplitChars s.data []

/-- Python `str.split(sep)` for a one-character separator: empty pieces are
kept (so splitting the empty string yields one empty piece). -/
def splitOnChar (sep : Char) : List Char → List Char → List String
  | [], acc => [String.mk acc.reverse]
  | c :: rest, acc =>
    if c == sep then String.mk acc.reverse :: splitOnChar sep rest []
    else splitOnChar sep rest (c :: acc)

/-- Python `str.strip()` on a character list: drop leading and trailing
whitespace. -/
def stripChars (cs : List Char) : List Char :=
  ((cs.dropWhile Char.isWhitespace).reverse.dropWhile Char.isWhitespace).reverse

/-- Python `str.strip()`. -/
def pyStrip (s : String) : String := String.mk (stripChars s.data)

/-- Python `str.startswith(pre)`. -/
def pyStartsWith (s pre : String) : Bool := pre.data.isPrefixOf s.data

/-- Python slicing `s[:n]` (by code point). -/
def pyTake (s : String) (n : Nat) : String := String.mk (s.data.take n)

/-- Decimal digits to the number they denote (callers check
`Char.isDigit` first). -/
def digitsToNat (cs : List Char) : Nat :=
  cs.foldl (fun a c => a * 10 + (c.toNat - 48)) 0

/-! Chunker

`DocumentIndexer.chunk_text` delegates to the LangChain
`RecursiveCharacterTextSplitter(chunk_size=1500, chunk_overlap=200, ...)`,
an external library whose source is not part of this repository, so the
chunker is modelled from the spec (section 4.1). -/

/-- Sentence-terminal characters from spec 4.1. -/
def isSentenceEnd (c : Char) : Bool := c == '.' || c == '!' || c == '?'

/-- Scan backward from position `p`, at most `steps` positions, for a
sentence-terminal character; answer the cut position just after it. -/
def findCutFrom (cs : List Char) : Nat → Nat → Option Nat
  | _, 0 => none
  | p, s + 1 =>
    if decide (p < cs.length) && isSentenceEnd (cs.getD p ' ') then some (p + 1)
    else
      match p with
      | 0 => none
      | q + 1 => findCutFrom cs q s

/-- Cut position for a window ending at `e`: the nearest sentence boundary at
most `overlap` characters back, else the raw boundary `e`. -/
def chunkCut (cs : List Char) (e overlap : Nat) : Nat :=
  if e = 0 then 0
  else
    match findCutFrom cs (e - 1) overlap with
    | some c => c
    | none => e

/-- Sliding-window loop of the spec 4.1 chunker: window of `csize`
characters, backward sentence-boundary search within `overlap` characters,
start advanced to `end - overlap` clamped so it strictly increases. -/
def chunkLoop (cs : List Char) (csize overlap : Nat) (start : Nat) :
    List (List Char) :=
  if h : cs.length ≤ start then []
  else if he : start + csize < cs.length then
    (cs.drop start).take (chunkCut cs (start + csize) overlap - start) ::
      chunkLoop cs csize overlap (max (start + csize - overlap) (start + 1))
  else [cs.drop start]
termination_by cs.length - start
decreasing_by
  have hs : start + 1 ≤ max (start + csize - overlap) (start + 1) :=
    le_max_right _ _
  omega

/-- Modelled from the spec: the concrete splitter is the LangChain
`RecursiveCharacterTextSplitter` (external library, absent from this
repository), so this follows the spec 4.1 chunker contract: a text that fits
within `chunk_size` is one chunk, longer text is split by a sliding window
with backward sentence-boundary search and overlap, every chunk is
whitespace-stripped and empty results are dropped. -/
def chunkSpec (text : String) (chunk_size overlap : Nat) : List String :=
  let cs := text.data
  let raw :=
    if cs.length ≤ chunk_size then [cs] else chunkLoop cs chunk_size overlap 0
  (((raw.map stripChars).filter (fun c => c != [])).map fun c => String.mk c)

/-- Instance chunker `DocumentIndexer.chunk_text` with the parameters
`chunk_size=1500, chunk_overlap=200` from indexer.py lines 30-35. -/
def chunk_text (text : String) : List String := chunkSpec text 1500 200

/-! DocumentIndexer (src/finpulse/rag/indexer.py) -/

/-- One stored chunk, as the dict built in `index_documents` (lines 87-96).
Caller-supplied per-document metadata is kept in `meta`; the Python
`document.update(metadata[i])` could overwrite the five fixed keys on a key
collision, but the only caller (generator.py `_build_document_index`)
supplies the keys ticker/cik/filing_date/report_date/form/accession_number,
which never collide with them. -/
structure DocChunk where
  chunk_id : String
  text : String
  url : String
  document_id : Nat
  chunk_length : Nat
  meta : List (String × String)
deriving Repr, DecidableEq

/-- The mutable indexer state: the `documents` list (and the storage
directory reported by `get_collection_stats`).  On-disk persistence
(`_load_documents`/`_save_documents`) mirrors this list and is not
modelled. -/
structure IndexerState where
  chroma_dir : String
  documents : List DocChunk
deriving Repr, DecidableEq

/-- Return value of `get_collection_stats` (lines 188-197). -/
structure CollectionStats where
  total_chunks : Nat
  chroma_dir : String
deriving Repr, DecidableEq

def DocumentIndexer.get_collection_stats (st : IndexerState) : CollectionStats :=
  { total_chunks := st.documents.length, chroma_dir := st.chroma_dir }

/-- Embeds `index_documents` (lines 70-101): no-op on an empty document list, else
chunk each text and append one record per chunk, merging the caller
per-document metadata when `metadata` is truthy and `i < len(metadata)`. -/
def DocumentIndexer.index_documents (st : IndexerState)
    (documents : List (String × String))
    (metadata : Option (List (List (String × String)))) : IndexerState :=
  if documents = [] then st
  else
    { st with
      documents := st.documents ++
        (documents.enum.map (fun p =>
          (chunk_text p.2.1).enum.map (fun q =>
            { chunk_id := toString p.1 ++ "_" ++ toString q.1
              text := q.2
              url := p.2.2
              document_id := p.1
              chunk_length := q.2.length
              meta :=
                match metadata with
                | some ms => if p.1 < ms.length then ms.getD p.1 [] else []
                | none => [] }))).flatten }

/-- Embeds `clear_index` (lines 182-186). -/
def DocumentIndexer.clear_index (st : IndexerState) : IndexerState :=
  { st with documents := [] }

/-- Synonym table `investment_keywords` (lines 124-135). -/
def investment_keywords : List (String × List String) :=
  [("sell", ["sell", "divest", "exit", "liquidate", "dispose"]),
   ("buy", ["buy", "purchase", "invest", "acquire", "add"]),
   ("hold", ["hold", "maintain", "keep", "retain"]),
   ("performance", ["performance", "results", "earnings", "revenue", "profit"]),
   ("growth", ["growth", "increase", "expansion", "rise"]),
   ("decline", ["decline", "decrease", "drop", "fall", "reduction"]),
   ("debt", ["debt", "liabilities", "borrowing", "leverage"]),
   ("cash", ["cash", "liquidity", "funds", "reserves"]),
   ("risk", ["risk", "uncertainty", "volatility", "exposure"]),
   ("opportunity", ["opportunity", "potential", "upside", "prospect"])]

/-- Marker list `financial_sections` (line 160). -/
def financial_sections : List String :=
  ["financial", "revenue", "income", "cash", "debt", "balance", "statement"]

/-- Lines 138-142: `expanded_query_words = set(query_words)` extended, for
each query word found in some synonym list, by that whole list.  A Python
set is modelled as a duplicate-free list; only membership, the score sum and
the cardinality of this set are ever used, so the element order is
irrelevant. -/
def expandQueryWords (query_words : List String) : List String :=
  (query_words ++
    query_words.flatMap (fun w =>
      investment_keywords.flatMap (fun cs => if w ∈ cs.2 then cs.2 else []))).dedup

/-- Lines 150-162: the score of one chunk text (already lower-cased): each
expanded word occurring as a substring adds 2 when it is an original query
word and 1 otherwise, and one bonus point is added when any financial
section marker occurs. -/
def scoreDoc (expanded query_words : List String) (textLower : String) : Nat :=
  (expanded.map (fun w =>
      if strContains textLower w then (if w ∈ query_words then 2 else 1)
      else 0)).sum
  + (if financial_sections.any (fun s => strContains textLower s) then 1 else 0)

/-- Lines 144-165: every stored chunk is paired with its score and
zero-score chunks are discarded.  Each pair is annotated with the
position in `documents` so the stable sort below is expressible. -/
def scoredDocs (docs : List DocChunk) (expanded query_words : List String) :
    List (Nat × DocChunk × Nat) :=
  (docs.enum.map (fun p =>
      (p.1, p.2, scoreDoc expanded query_words (pyLower p.2.text)))).filter
    (fun x => decide (0 < x.2.2))

/-- The order computed by line 168, `scored_docs.sort(key=score,
reverse=True)`: the Python sort is stable, and a stable descending sort by
score is exactly the sort by the total order (score descending, original
position ascending). -/
def rankLe (x y : Nat × DocChunk × Nat) : Prop :=
  y.2.2 < x.2.2 ∨ (x.2.2 = y.2.2 ∧ x.1 ≤ y.1)

instance : DecidableRel rankLe := fun x y =>
  inferInstanceAs (Decidable (_ ∨ _))

instance : IsTotal (Nat × DocChunk × Nat) rankLe :=
  ⟨by intro a b; unfold rankLe; omega⟩

instance : IsTrans (Nat × DocChunk × Nat) rankLe :=
  ⟨by intro a b c; unfold rankLe; omega⟩

/-- Embeds `retrieve` (lines 103-180): empty result on an empty index, else score,
discard zeros, sort stably by descending score, take the first `k`, and
normalize each score to the minimum of score over (2n+1) and 1.  The Python
float division is modelled exactly in `ℚ`. -/
def DocumentIndexer.retrieve (st : IndexerState) (query : String) (k : Nat) :
    List (String × String × ℚ) :=
  if st.documents = [] then []
  else
    let query_words := pySplit (pyLower query)
    let expanded := expandQueryWords query_words
    let top_docs :=
      (List.insertionSort rankLe (scoredDocs st.documents expanded query_words)).take k
    top_docs.map (fun x =>
      (x.2.1.text, x.2.1.url,
        min ((x.2.2 : ℚ) / (2 * expanded.length + 1)) 1))

/-! EdgarClient.extract_kpis (src/finpulse/ingest/edgar.py) -/

/-- One observation from a SEC facts array.  The Python code reads exactly
the keys `val` (direct index, present in every well-formed observation),
`end`, `form`, `filed` (each via a get with empty-string default, so a missing key behaves
as the empty string, which is how absence is modelled here).  `end` is a
Lean keyword, hence `endDate`. -/
structure Obs where
  val : Int
  endDate : String
  form : String
  filed : String
deriving Repr, DecidableEq

/-- A calendar date as parsed by datetime.strptime with format Y-m-d. -/
structure PDate where
  year : Nat
  month : Nat
  day : Nat
deriving Repr, DecidableEq

/-- Comparison of two dates as datetime does (times are midnight): lexicographic
on (year, month, day). -/
def dateLe (a b : PDate) : Bool :=
  decide (a.year < b.year ∨
    (a.year = b.year ∧
      (a.month < b.month ∨ (a.month = b.month ∧ a.day ≤ b.day))))

def isLeapYear (y : Nat) : Bool :=
  (y % 4 == 0 && y % 100 != 0) || (y % 400 == 0)

def daysInMonth (y m : Nat) : Nat :=
  if m == 2 then (if isLeapYear y then 29 else 28)
  else if m == 4 || m == 6 || m == 9 || m == 11 then 30
  else 31

def isDigitStr (s : String) : Bool := !s.data.isEmpty && s.data.all Char.isDigit

/-- Embeds datetime.strptime with format Y-m-d: the year is exactly four digits, month
and `%d` one or two digits, and the date must be valid (month 1-12, day
within the month, year at least 1); anything else raises ValueError,
modelled as `none`. -/
def parseDate (s : String) : Option PDate :=
  match splitOnChar '-' s.data [] with
  | [ys, ms, ds] =>
    if isDigitStr ys && ys.length == 4 && isDigitStr ms &&
        decide (ms.length ≤ 2) && isDigitStr ds && decide (ds.length ≤ 2) then
      let y := digitsToNat ys.data
      let m := digitsToNat ms.data
      let d := digitsToNat ds.data
      if decide (1 ≤ y ∧ 1 ≤ m ∧ m ≤ 12 ∧ 1 ≤ d ∧ d ≤ daysInMonth y m) then
        some ⟨y, m, d⟩
      else none
    else none
  | _ => none

/-- The `units` dict of one us-gaap concept: unit name to observation array.
A concept lacking the `units` key behaves as the empty dict (the code reads
it with a get whose default is the empty dict). -/
abbrev UnitsMap := List (String × List Obs)

/-- The `facts` section: `us-gaap` maps concept names to their units dict;
`none` models a payload whose `facts` dict lacks the `us-gaap` key. -/
structure FactsSection where
  us_gaap : Option (List (String × UnitsMap))
deriving DecidableEq

/-- A company-facts payload as read by `extract_kpis`: only the `facts`
key is accessed (through the two membership checks on line 162); `none`
models its absence, in particular the empty payload `{}`. -/
structure CompanyFacts where
  facts : Option FactsSection
deriving DecidableEq

/-- Python dict lookup on an association list (dict keys are unique, so the
first match is the dict entry). -/
def lookupKey {β : Type} (m : List (String × β)) (k : String) : Option β :=
  match m.find? (fun p => p.1 == k) with
  | some p => some p.2
  | none => none

/-- Lines 194-213 of `get_latest_10q_data`: keep observations whose form
starts with `10-Q`, then those with a nonempty, parseable end date on or
after the cutoff (`datetime.now() - timedelta(days=730)`, passed here as an
explicit date parameter). -/
def surviving10q (cutoff : PDate) (unit_data : List Obs) : List Obs :=
  ((unit_data.filter (fun item => pyStartsWith item.form "10-Q")).filter
    (fun item =>
      item.endDate != "" &&
        match parseDate item.endDate with
        | some d => dateLe cutoff d
        | none => false))

/-- Embeds `get_latest_10q_data` (lines 189-216): `None` on a falsy input list,
else the last element of the surviving list (`recent_q10_data[-1]`), or
`None` when nothing survives. -/
def get_latest_10q_data (cutoff : PDate) (unit_data : List Obs) : Option Obs :=
  if unit_data = [] then none
  else (surviving10q cutoff unit_data).getLast?

/-- Table `kpi_mappings` (lines 169-175): KPI name paired with the SEC concept
name used to look it up. -/
def kpi_mappings : List (String × String) :=
  [("Revenues", "Revenues"),
   ("NetIncomeLoss", "NetIncomeLoss"),
   ("EarningsPerShareDiluted", "EarningsPerShareDiluted"),
   ("CashAndCashEquivalentsAtCarryingValue",
     "CashAndCashEquivalentsAtCarryingValue"),
   ("LongTermDebtNoncurrent", "LongTermDebtNoncurrent")]

/-- Lines 185-232: unit selection for one concept: the preferred unit (USD,
or USD/shares for diluted EPS), falling back to USD, then USD/shares, then
the first unit present. -/
def selectUnitData (kpi_name : String) (units : UnitsMap) (cutoff : PDate) :
    Option Obs :=
  let preferred := if kpi_name != "EarningsPerShareDiluted" then "USD"
    else "USD/shares"
  match lookupKey units preferred with
  | some ud => get_latest_10q_data cutoff ud
  | none =>
    match lookupKey units "USD" with
    | some ud => get_latest_10q_data cutoff ud
    | none =>
      match lookupKey units "USD/shares" with
      | some ud => get_latest_10q_data cutoff ud
      | none =>
        match units.head? with
        | some p => get_latest_10q_data cutoff p.2
        | none => none

/-- One entry of the KPI mapping built on lines 237-242. -/
structure KpiRecord where
  value : Int
  period : String
  form : String
  filed : String
deriving Repr, DecidableEq

/-- Embeds `extract_kpis` (lines 150-244): empty result when the payload lacks the
`facts`/`us-gaap` structure; otherwise, for each recognized KPI whose
concept is present, the selected observation (if any) contributes one
record; a `None` selection contributes nothing (the Python truthiness test
`if latest_data` on an observation dict holding `val` is `isSome` here).
The function is total: no exception escapes on any modelled payload. -/
def EdgarClient.extract_kpis (cutoff : PDate) (company_facts : CompanyFacts) :
    List (String × KpiRecord) :=
  match company_facts.facts with
  | none => []
  | some fs =>
    match fs.us_gaap with
    | none => []
    | some us_gaap =>
      kpi_mappings.foldl (fun kpis p =>
        match lookupKey us_gaap p.2 with
        | none => kpis
        | some units =>
          match selectUnitData p.1 units cutoff with
          | some latest =>
            kpis ++ [(p.1,
              { value := latest.val, period := latest.endDate,
                form := latest.form, filed := latest.filed })]
          | none => kpis) []

/-! GeminiClient.summarize (src/finpulse/llm/gemini.py) -/

/-- Citation list built on lines 55-68: one `[Sn]` marker per retrieved
source in order, and the two fixed SEC fallback citations when no source
was retrieved. -/
def sourceCitations (sources : List (String × String × ℚ)) :
    List (String × String) :=
  (sources.enum.map (fun p => ("[S" ++ toString (p.1 + 1) ++ "]", p.2.2.1))) ++
    (if sources = [] then
      [("[S1]", "https://www.sec.gov/edgar/sec-api-documentation"),
       ("[S2]", "https://www.sec.gov/edgar")]
     else [])

/-- Embeds `summarize` (lines 32-114).  The external `generate_content` call is an
opaque collaborator; its outcome — generated text, or the message of the
exception it raised — is the `llm_outcome` argument.  The prompt built from
the KPIs and sources only feeds that call and does not otherwise affect the
returned narrative.  On success the generated text is stripped and, as the
citation list is nonempty, the Sources block is appended (lines 96-100); on
any exception the deterministic fallback narrative of lines 109-114 is
returned and nothing is raised. -/
def GeminiClient.summarize (kpis : List (String × KpiRecord))
    (sources : List (String × String × ℚ)) (user_query : String)
    (llm_outcome : Except String String) : String :=
  let source_citations := sourceCitations sources
  match llm_outcome with
  | Except.ok text =>
    let summary := pyStrip text
    if source_citations = [] then summary
    else
      summary ++ "\n\n**Sources:**\n" ++
        String.join (source_citations.map
          (fun c => "- " ++ c.1 ++ ": " ++ c.2 ++ "\n"))
  | Except.error e =>
    "Analysis for query: \x27" ++ user_query ++ "\x27\n\n" ++
    "Based on " ++ toString kpis.length ++ " key metrics and " ++
    toString sources.length ++ " relevant documents. " ++
    "Key metrics include revenue, net income, and cash position. " ++
    "\n\n⚠️ **Note**: AI analysis unavailable due to API error: " ++
    pyTake e 100 ++ "..." ++
    "Please refer to the source documents for detailed analysis."

/-! ReportGenerator.clear_cache (src/finpulse/report/generator.py) -/

/-- The orchestrator state touched by `clear_cache`: the process-scoped
build cache `processed_cache` (its keys; every stored value is `True`) and
the document indexer. -/
structure ReportGeneratorState where
  processed_cache : List String
  rag_indexer : IndexerState
deriving DecidableEq

/-- Embeds `clear_cache` (lines 281-297): with a truthy ticker, delete exactly the
cache keys that start with it (leaving the indexer untouched); otherwise —
`None` or the empty string, both falsy under the Python truthiness test — clear
the whole cache and the document index. -/
def ReportGenerator.clear_cache (st : ReportGeneratorState)
    (ticker : Option String) : ReportGeneratorState :=
  if ticker.getD "" != "" then
    { st with
      processed_cache := st.processed_cache.filter
        (fun key => !(pyStartsWith key (ticker.getD ""))) }
  else
    { processed_cache := [],
      rag_indexer := DocumentIndexer.clear_index st.rag_indexer }

/-! Helper lemmas -/

theorem strOccurs_self (s : String) : strOccurs s s :=
  ⟨[], [], by simp⟩

theorem strOccurs_left (x s n : String) (h : strOccurs s n) :
    strOccurs (x ++ s) n := by
  obtain ⟨u, v, huv⟩ := h
  exact ⟨x.data ++ u, v, by simp [String.data_append, huv]⟩

theorem strOccurs_right (s x n : String) (h : strOccurs s n) :
    strOccurs (s ++ x) n := by
  obtain ⟨u, v, huv⟩ := h
  exact ⟨u, v ++ x.data, by simp [String.data_append, huv]⟩

theorem sourceCitations_ne_nil (sources : List (String × String × ℚ)) :
    sourceCitations sources ≠ [] := by
  cases sources <;> simp [sourceCitations]

/-- The canonical Sources section in the words of the claim: a single Sources
heading followed by each citation marker with its URL. -/
def canonicalSourcesSection (citations : List (String × String)) : String :=
  "\n\n**Sources:**\n" ++
    String.join (citations.map (fun c => "- " ++ c.1 ++ ": " ++ c.2 ++ "\n"))

/-! Claim C5 -/

/-- C5: for every kpis mapping, sources list and query, if the external
generation call raises any exception, `summarize` does not raise: it
returns a non-empty fallback narrative containing the literal user query,
the count of KPIs, the count of sources, and the exception message
truncated to 100 characters.  (The embedding is a total function, so "does
not raise" holds by construction; the conjuncts below give the content.) -/
theorem C5_fallback_narrative (kpis : List (String × KpiRecord))
    (sources : List (String × String × ℚ)) (user_query err : String) :
    GeminiClient.summarize kpis sources user_query (Except.error err) ≠ "" ∧
    strOccurs (GeminiClient.summarize kpis sources user_query
      (Except.error err)) user_query ∧
    strOccurs (GeminiClient.summarize kpis sources user_query
      (Except.error err)) (toString kpis.length) ∧
    strOccurs (GeminiClient.summarize kpis sources user_query
      (Except.error err)) (toString sources.length) ∧
    strOccurs (GeminiClient.summarize kpis sources user_query
      (Except.error err)) (pyTake err 100) := by
  simp only [GeminiClient.summarize]
  refine ⟨?_, ?_, ?_, ?_, ?_⟩
  · intro h
    have h2 := congrArg String.length h
    simp only [String.length_append] at h2
    have h3 : String.length "Analysis for query: \x27" = 21 := rfl
    have h4 : String.length "" = 0 := rfl
    omega
  · exact strOccurs_right _ _ _ (strOccurs_right _ _ _ (strOccurs_right _ _ _
      (strOccurs_right _ _ _ (strOccurs_right _ _ _ (strOccurs_right _ _ _
      (strOccurs_right _ _ _ (strOccurs_right _ _ _ (strOccurs_right _ _ _
      (strOccurs_right _ _ _ (strOccurs_right _ _ _
      (strOccurs_left _ _ _ (strOccurs_self _))))))))))))
  · exact strOccurs_right _ _ _ (strOccurs_right _ _ _ (strOccurs_right _ _ _
      (strOccurs_right _ _ _ (strOccurs_right _ _ _ (strOccurs_right _ _ _
      (strOccurs_right _ _ _ (strOccurs_right _ _ _
      (strOccurs_left _ _ _ (strOccurs_self _)))))))))
  · exact strOccurs_right _ _ _ (strOccurs_right _ _ _ (strOccurs_right _ _ _
      (strOccurs_right _ _ _ (strOccurs_right _ _ _ (strOccurs_right _ _ _
      (strOccurs_left _ _ _ (strOccurs_self _)))))))
  · exact strOccurs_right _ _ _ (strOccurs_right _ _ _
      (strOccurs_left _ _ _ (strOccurs_self _)))

/-! Claim C2 -/

/-- C2 (counterexample): the generated text already ends with a
"Sources:"-style block, and `summarize` does not strip it: the returned
narrative carries two "Sources:" headings, not exactly one. -/
theorem C2_counterexample :
    occurrencesOf (GeminiClient.summarize [] [("chunk", "http://u", 1)] "q"
      (Except.ok "Answer [S1]\n\nSources:\n- [S1]: http://u")) "Sources:" = 2 ∧
    occurrencesOf (GeminiClient.summarize [] [("chunk", "http://u", 1)] "q"
      (Except.ok "Answer [S1]\n\nSources:\n- [S1]: http://u")) "Sources:" ≠ 1 := by
  constructor
  · rfl
  · decide

/-- C2 (amended): `summarize` appends exactly one canonical Sources section
after the trimmed generated text — its citation list is never empty — but
performs no stripping of a pre-existing "Sources:"-style block, so when the
generated text already contains such a block the narrative keeps both. -/
theorem C2_sources_append (kpis : List (String × KpiRecord))
    (sources : List (String × String × ℚ)) (user_query t : String) :
    GeminiClient.summarize kpis sources user_query (Except.ok t) =
      pyStrip t ++ canonicalSourcesSection (sourceCitations sources) ∧
    sourceCitations sources ≠ [] := by
  refine ⟨?_, sourceCitations_ne_nil sources⟩
  simp only [GeminiClient.summarize, canonicalSourcesSection]
  rw [if_neg (sourceCitations_ne_nil sources), String.append_assoc]

/-! Claim C10 -/

/-- Concrete orchestrator state for claim C10: one cached build key and one
indexed chunk. -/
def c10state : ReportGeneratorState :=
  { processed_cache := ["AAPL_10-Q_0000320193"],
    rag_indexer :=
      { chroma_dir := "data/cache/chroma",
        documents := [{ chunk_id := "0_0", text := "revenue statement text",
                        url := "http://u", document_id := 0,
                        chunk_length := 22, meta := [] }] } }

/-- C10 (counterexample): calling `clear_cache` with the empty-string
ticker — a ticker argument, not the no-ticker call — nevertheless clears
the chunk index, because the Python truthiness test treats `""` as absent. -/
theorem C10_counterexample :
    (ReportGenerator.clear_cache c10state (some "")).rag_indexer.documents
      = [] ∧
    c10state.rag_indexer.documents ≠ [] := by
  constructor
  · rfl
  · decide

/-- C10 (amended): for every nonempty ticker, `clear_cache` removes exactly
the build-cache keys having that ticker as a prefix (so clearing "A" also
evicts "AAPL" entries), leaves the indexer state — hence every `retrieve`
answer — unchanged, and only the no-ticker (or falsy-ticker) call clears
the chunk index. -/
theorem C10_clear_cache (st : ReportGeneratorState) (t query : String)
    (k : Nat) (ht : t ≠ "") :
    (ReportGenerator.clear_cache st (some t)).rag_indexer = st.rag_indexer ∧
    (ReportGenerator.clear_cache st (some t)).processed_cache =
      st.processed_cache.filter (fun key => !(pyStartsWith key t)) ∧
    DocumentIndexer.retrieve
        (ReportGenerator.clear_cache st (some t)).rag_indexer query k =
      DocumentIndexer.retrieve st.rag_indexer query k ∧
    (ReportGenerator.clear_cache st none).rag_indexer.documents = [] ∧
    (ReportGenerator.clear_cache st none).processed_cache = [] := by
  refine ⟨?_, ?_, ?_, ?_, ?_⟩
  · simp [ReportGenerator.clear_cache, ht]
  · simp [ReportGenerator.clear_cache, ht]
  · simp [ReportGenerator.clear_cache, ht]
  · simp [ReportGenerator.clear_cache, DocumentIndexer.clear_index]
  · simp [ReportGenerator.clear_cache]

/-- C10 witness: the amended theorem applied to the concrete state, with
ticker "A" evicting the "AAPL"-keyed cache entry while the chunk store and
its retrieval answers survive. -/
theorem C10_witness :
    (ReportGenerator.clear_cache c10state (some "A")).rag_indexer
        = c10state.rag_indexer ∧
    (ReportGenerator.clear_cache c10state (some "A")).processed_cache = [] := by
  have h := C10_clear_cache c10state "A" "revenue" 5 (by decide)
  exact ⟨h.1, by rw [h.2.1]; rfl⟩

/-! Claim C4 -/

/-- Number of positively-scored ("matching") chunks for a query, the length
of the survivor list inside `retrieve`. -/
def matchingChunks (st : IndexerState) (query : String) : Nat :=
  (scoredDocs st.documents
    (expandQueryWords (pySplit (pyLower query)))
    (pySplit (pyLower query))).length

/-- C4: `retrieve(query, k)` returns at most `k` results; on an empty index
it returns the empty sequence for every query and every `k`; and when `k`
is at least the number of matching chunks it returns all of them (no
error: the embedding is total). -/
theorem C4_retrieve_bounds (st : IndexerState) (query : String) (k : Nat) :
    (DocumentIndexer.retrieve st query k).length ≤ k ∧
    (st.documents = [] → DocumentIndexer.retrieve st query k = []) ∧
    (matchingChunks st query ≤ k →
      (DocumentIndexer.retrieve st query k).length = matchingChunks st query) := by
  by_cases hd : st.documents = []
  · refine ⟨?_, fun _ => ?_, fun _ => ?_⟩
    · simp [DocumentIndexer.retrieve, hd]
    · simp [DocumentIndexer.retrieve, hd]
    · simp [DocumentIndexer.retrieve, hd, matchingChunks, scoredDocs]
  · have hlen : (DocumentIndexer.retrieve st query k).length =
        min k (matchingChunks st query) := by
      simp [DocumentIndexer.retrieve, hd, matchingChunks,
        List.length_take, List.length_insertionSort]
    refine ⟨?_, fun h => absurd h hd, fun h => ?_⟩
    · rw [hlen]; exact Nat.min_le_left _ _
    · rw [hlen]; omega

/-- C4 witness: the bounds theorem applied to an empty index and to a
one-chunk index whose single matching chunk is returned for a large `k`. -/
theorem C4_witness :
    DocumentIndexer.retrieve { chroma_dir := "d", documents := [] }
        "revenue" 7 = [] ∧
    (DocumentIndexer.retrieve
        { chroma_dir := "d",
          documents := [{ chunk_id := "0_0", text := "Revenue grew.",
                          url := "u", document_id := 0, chunk_length := 13,
                          meta := [] }] } "revenue" 7).length = 1 := by
  constructor
  · exact (C4_retrieve_bounds { chroma_dir := "d", documents := [] }
      "revenue" 7).2.1 rfl
  · exact (C4_retrieve_bounds _ "revenue" 7).2.2 (by decide)

/-! Claim C8 -/

/-- C8: from an empty index, indexing documents yields a total chunk count
equal to the sum of the per-document chunk counts; after `clear_index` the
stats report zero chunks and `retrieve` answers the empty sequence for
every query and every `k`. -/
theorem C8_index_roundtrip (dir : String)
    (docs : List (String × String))
    (metadata : Option (List (List (String × String))))
    (st : IndexerState) (query : String) (k : Nat) :
    (DocumentIndexer.get_collection_stats
        (DocumentIndexer.index_documents
          { chroma_dir := dir, documents := [] } docs metadata)).total_chunks =
      (docs.map (fun d => (chunk_text d.1).length)).sum ∧
    (DocumentIndexer.get_collection_stats
        (DocumentIndexer.clear_index st)).total_chunks = 0 ∧
    DocumentIndexer.retrieve (DocumentIndexer.clear_index st) query k = [] := by
  refine ⟨?_, rfl, by simp [DocumentIndexer.retrieve, DocumentIndexer.clear_index]⟩
  by_cases hd : docs = []
  · simp [DocumentIndexer.index_documents, hd,
      DocumentIndexer.get_collection_stats]
  · simp only [DocumentIndexer.index_documents, if_neg hd,
      DocumentIndexer.get_collection_stats, List.length_append,
      List.length_nil, List.length_flatten, List.map_map, Nat.zero_add]
    calc (docs.enum.map (List.length ∘ _)).sum
        = (docs.enum.map (fun p : Nat × (String × String) =>
            (chunk_text p.2.1).length)).sum := by
          apply congrArg
          apply List.map_congr_left
          intro p _
          simp
      _ = (docs.map (fun d => (chunk_text d.1).length)).sum := by
          rw [← List.enum_map_snd docs, List.map_map]
          simp [Function.comp_def]

/-! Claims C1 and C6 -/

/-- Compares observations: the parsed end date of `a` is at most that of `b`. -/
def obsEndLe (a b : Obs) : Bool :=
  match parseDate a.endDate, parseDate b.endDate with
  | some da, some db => dateLe da db
  | _, _ => false

theorem dateLe_refl (d : PDate) : dateLe d d = true := by
  simp [dateLe]

theorem mem_surviving10q {cutoff : PDate} {ud : List Obs} {o : Obs}
    (h : o ∈ surviving10q cutoff ud) :
    ∃ d, parseDate o.endDate = some d ∧ dateLe cutoff d = true := by
  have hp := List.of_mem_filter h
  rcases hb : parseDate o.endDate with _ | d
  · rw [hb] at hp
    simp at hp
  · refine ⟨d, rfl, ?_⟩
    rw [hb] at hp
    simp at hp
    exact hp.2

/-- Observations used by the claim-C1 theorems: both quarterly, both inside
the window for a cutoff of 2024-01-01, listed newest first. -/
def c1obsA : Obs :=
  { val := 1, endDate := "2025-06-30", form := "10-Q", filed := "" }

def c1obsB : Obs :=
  { val := 2, endDate := "2025-03-31", form := "10-Q", filed := "" }

/-- C1 (counterexample): with the surviving candidates *not* in
chronological order, the selection takes the last-occurring survivor
(value 2, period 2025-03-31) although another survivor has a strictly
later end date (2025-06-30): the selected end date is not maximal.  The
same payload drives `extract_kpis` to report the non-maximal
observation. -/
theorem C1_counterexample :
    surviving10q { year := 2024, month := 1, day := 1 } [c1obsA, c1obsB] =
      [c1obsA, c1obsB] ∧
    get_latest_10q_data { year := 2024, month := 1, day := 1 }
        [c1obsA, c1obsB] = some c1obsB ∧
    (obsEndLe c1obsB c1obsA = true ∧ c1obsB.endDate ≠ c1obsA.endDate) ∧
    EdgarClient.extract_kpis { year := 2024, month := 1, day := 1 }
        { facts := some
            { us_gaap := some [("Revenues", [("USD", [c1obsA, c1obsB])])] } } =
      [("Revenues",
        { value := 2, period := "2025-03-31", form := "10-Q", filed := "" })] := by
  exact ⟨rfl, rfl, ⟨rfl, by decide⟩, rfl⟩

/-- C1 (amended): after the quarterly-form and 24-month filters, the
selection takes the *last-occurring* surviving observation; when the
surviving candidates are in nondecreasing end-date order — which the SEC
payload chronological ordering guarantees, per the comment in the code —
the end date of that observation is at least that of every survivor. -/
theorem C1_selects_last_survivor (cutoff : PDate) (unit_data : List Obs)
    (hchrono : (surviving10q cutoff unit_data).Pairwise
      (fun a b => obsEndLe a b = true)) :
    get_latest_10q_data cutoff unit_data =
      (surviving10q cutoff unit_data).getLast? ∧
    ∀ o ∈ surviving10q cutoff unit_data, ∃ sel,
      get_latest_10q_data cutoff unit_data = some sel ∧
        obsEndLe o sel = true := by
  have h1 : get_latest_10q_data cutoff unit_data =
      (surviving10q cutoff unit_data).getLast? := by
    by_cases hu : unit_data = []
    · subst hu; rfl
    · simp [get_latest_10q_data, hu]
  refine ⟨h1, fun o ho => ?_⟩
  have homem := ho
  have hne : surviving10q cutoff unit_data ≠ [] := List.ne_nil_of_mem ho
  have hlast : (surviving10q cutoff unit_data).getLast? =
      some ((surviving10q cutoff unit_data).getLast hne) :=
    List.getLast?_eq_getLast _ hne
  refine ⟨(surviving10q cutoff unit_data).getLast hne, by rw [h1, hlast], ?_⟩
  have hsplit := List.dropLast_append_getLast hne
  rw [← hsplit, List.pairwise_append] at hchrono
  obtain ⟨-, -, hrel⟩ := hchrono
  rw [← hsplit] at ho
  rcases List.mem_append.1 ho with hmem | hmem
  · exact hrel o hmem _ (List.mem_singleton_self _)
  · have heq : o = (surviving10q cutoff unit_data).getLast hne := by
      simpa using hmem
    obtain ⟨d, hp, -⟩ := mem_surviving10q homem
    rw [← heq]
    simp [obsEndLe, hp, dateLe_refl]

/-- C1 witness: the amended theorem applied to a chronologically ordered
candidate list; the selected observation is the latest-dated survivor. -/
theorem C1_witness :
    ∃ sel, get_latest_10q_data { year := 2024, month := 1, day := 1 }
        [c1obsB, c1obsA] = some sel ∧ obsEndLe c1obsB sel = true :=
  (C1_selects_last_survivor { year := 2024, month := 1, day := 1 }
    [c1obsB, c1obsA] (by decide)).2 c1obsB (by decide)

/-- C6: `extract_kpis` on the empty payload (or one lacking the
`facts`/`us-gaap` structure) returns the empty mapping — totality of the
embedding is "never raises"; a payload holding exactly one quarterly USD
Revenues observation inside the 24-month window yields exactly the
Revenues record with the value of that observation; the same observation dated
before the cutoff yields no Revenues record at all. -/
theorem C6_extract_kpis_cases (cutoff : PDate) (obs : Obs) (d : PDate)
    (hform : pyStartsWith obs.form "10-Q" = true)
    (hparse : parseDate obs.endDate = some d) :
    EdgarClient.extract_kpis cutoff { facts := none } = [] ∧
    EdgarClient.extract_kpis cutoff { facts := some { us_gaap := none } } = [] ∧
    (dateLe cutoff d = true →
      EdgarClient.extract_kpis cutoff
          { facts := some
              { us_gaap := some [("Revenues", [("USD", [obs])])] } } =
        [("Revenues",
          { value := obs.val, period := obs.endDate, form := obs.form,
            filed := obs.filed })]) ∧
    (dateLe cutoff d = false →
      EdgarClient.extract_kpis cutoff
          { facts := some
              { us_gaap := some [("Revenues", [("USD", [obs])])] } } = []) := by
  have hns : obs.endDate ≠ "" := by
    intro he
    rw [he] at hparse
    have h0 : parseDate "" = none := rfl
    rw [h0] at hparse
    exact Option.noConfusion hparse
  have hne : (obs.endDate != "") = true := by
    simpa [bne_iff_ne] using hns
  refine ⟨rfl, rfl, fun hle => ?_, fun hgt => ?_⟩
  · simp [EdgarClient.extract_kpis, kpi_mappings, lookupKey, selectUnitData,
      get_latest_10q_data, surviving10q, List.filter, hform, hne, hparse, hle]
  · simp [EdgarClient.extract_kpis, kpi_mappings, lookupKey, selectUnitData,
      get_latest_10q_data, surviving10q, List.filter, hform, hne, hparse, hgt]

/-- C6 witness: the case theorem applied to a concrete in-window
observation (cutoff 2024-01-01, period 2024-09-28) and, out of window, to
a cutoff of 2024-10-01 against a period of 2021-09-28 (three years old). -/
theorem C6_witness :
    EdgarClient.extract_kpis { year := 2024, month := 1, day := 1 }
        { facts := some
            { us_gaap := some [("Revenues", [("USD",
                [{ val := 89498000000, endDate := "2024-09-28",
                   form := "10-Q", filed := "2024-11-01" }])])] } } =
      [("Revenues",
        { value := 89498000000, period := "2024-09-28", form := "10-Q",
          filed := "2024-11-01" })] ∧
    EdgarClient.extract_kpis { year := 2024, month := 10, day := 1 }
        { facts := some
            { us_gaap := some [("Revenues", [("USD",
                [{ val := 89498000000, endDate := "2021-09-28",
                   form := "10-Q", filed := "2021-11-01" }])])] } } = [] := by
  constructor
  · exact (C6_extract_kpis_cases { year := 2024, month := 1, day := 1 }
      { val := 89498000000, endDate := "2024-09-28", form := "10-Q",
        filed := "2024-11-01" } { year := 2024, month := 9, day := 28 }
      (by decide) (by decide)).2.2.1 (by decide)
  · exact (C6_extract_kpis_cases { year := 2024, month := 10, day := 1 }
      { val := 89498000000, endDate := "2021-09-28", form := "10-Q",
        filed := "2021-11-01" } { year := 2021, month := 9, day := 28 }
      (by decide) (by decide)).2.2.2 (by decide)

/-! Claim C9 -/

theorem findCutFrom_le (cs : List Char) :
    ∀ steps p c, findCutFrom cs p steps = some c → c ≤ p + 1 := by
  intro steps
  induction steps with
  | zero => intro p c h; simp [findCutFrom] at h
  | succ s ih =>
    intro p c h
    cases p with
    | zero =>
      rw [findCutFrom] at h
      split at h
      · have := Option.some.inj h
        omega
      · exact Option.noConfusion h
    | succ q =>
      rw [findCutFrom] at h
      split at h
      · have := Option.some.inj h
        omega
      · have := ih q c h
        omega

theorem chunkCut_le (cs : List Char) (e overlap : Nat) :
    chunkCut cs e overlap ≤ e := by
  rw [chunkCut]
  by_cases he : e = 0
  · simp [he]
  · rw [if_neg he]
    rcases hf : findCutFrom cs (e - 1) overlap with _ | c
    · simp [hf]
    · simp only [hf]
      have := findCutFrom_le cs overlap (e - 1) c hf
      omega

theorem chunkLoop_length_le (cs : List Char) (csize overlap : Nat) :
    ∀ n start, cs.length - start ≤ n →
      ∀ c ∈ chunkLoop cs csize overlap start, c.length ≤ csize := by
  intro n
  induction n with
  | zero =>
    intro start hle c hc
    rw [chunkLoop, dif_pos (by omega)] at hc
    exact absurd hc (List.not_mem_nil c)
  | succ n ih =>
    intro start hle c hc
    rw [chunkLoop] at hc
    by_cases h1 : cs.length ≤ start
    · rw [dif_pos h1] at hc
      exact absurd hc (List.not_mem_nil c)
    · rw [dif_neg h1] at hc
      by_cases h2 : start + csize < cs.length
      · rw [dif_pos h2] at hc
        rcases List.mem_cons.1 hc with rfl | htail
        · have hcut := chunkCut_le cs (start + csize) overlap
          have : ((cs.drop start).take
              (chunkCut cs (start + csize) overlap - start)).length ≤
                chunkCut cs (start + csize) overlap - start :=
            List.length_take_le _ _
          omega
        · exact ih (max (start + csize - overlap) (start + 1))
            (by omega) c htail
      · rw [dif_neg h2] at hc
        rcases List.mem_singleton.1 hc with rfl
        rw [List.length_drop]
        omega

theorem stripChars_length_le (cs : List Char) :
    (stripChars cs).length ≤ cs.length := by
  unfold stripChars
  calc ((cs.dropWhile Char.isWhitespace).reverse.dropWhile
          Char.isWhitespace).reverse.length
      = ((cs.dropWhile Char.isWhitespace).reverse.dropWhile
          Char.isWhitespace).length := List.length_reverse _
    _ ≤ (cs.dropWhile Char.isWhitespace).reverse.length :=
        (List.dropWhile_sublist _).length_le
    _ = (cs.dropWhile Char.isWhitespace).length := List.length_reverse _
    _ ≤ cs.length := (List.dropWhile_sublist _).length_le

/-- C9 (counterexample): an empty (or all-whitespace) text fits within the
chunk size but is not returned as a single chunk: the stripped-empty result
is dropped and chunking yields no chunk at all.  A text with surrounding
whitespace is returned stripped, not verbatim. -/
theorem C9_counterexample :
    chunk_text "" = [] ∧ chunk_text "" ≠ [""] ∧
    chunk_text " a" = ["a"] ∧ chunk_text " a" ≠ [" a"] := by
  exact ⟨rfl, by decide, rfl, by decide⟩

/-- C9 (amended): a text of length at most `chunk_size` whose
whitespace-stripped content is nonempty is returned as that single stripped
chunk; and for every text, every returned chunk is non-empty and has length
at most `chunk_size` (no slack is needed). -/
theorem C9_chunk_properties (text : String) (csize overlap : Nat) :
    (text.length ≤ csize → stripChars text.data ≠ [] →
      chunkSpec text csize overlap = [String.mk (stripChars text.data)]) ∧
    (∀ c ∈ chunkSpec text csize overlap, c ≠ "" ∧ c.length ≤ csize) := by
  have hlen : text.length = text.data.length := rfl
  constructor
  · intro hfit hne
    have hfit2 : text.data.length ≤ csize := hlen ▸ hfit
    simp [chunkSpec, hfit, hfit2, List.filter, hne]
  · intro c hc
    simp only [chunkSpec, List.mem_map] at hc
    obtain ⟨l, hl, rfl⟩ := hc
    rw [List.mem_filter] at hl
    obtain ⟨hlmem, hlne⟩ := hl
    have hlne2 : l ≠ [] := by simpa using hlne
    rw [List.mem_map] at hlmem
    obtain ⟨r, hr, rfl⟩ := hlmem
    constructor
    · intro habs
      exact hlne2 (congrArg String.data habs)
    · show (stripChars r).length ≤ csize
      have hsl := stripChars_length_le r
      split at hr
      · next hcond =>
          rcases List.mem_singleton.1 hr with rfl
          omega
      · next hcond =>
          have := chunkLoop_length_le text.data csize overlap
            (text.data.length) 0 (by omega) r hr
          omega

/-- C9 witness: the amended theorem applied to " a." with the instance
parameters: a single stripped chunk, nonempty and within bounds. -/
theorem C9_witness :
    chunkSpec " a." 1500 200 = ["a."] ∧
    ("a." ≠ "" ∧ "a.".length ≤ 1500) := by
  constructor
  · exact ((C9_chunk_properties " a." 1500 200).1 (by decide)
      (by decide)).trans (by decide)
  · exact (C9_chunk_properties " a." 1500 200).2 "a." (by decide)

/-! Claim C3 -/

/-- Per-chunk scoring formula of claim C3, in the words of the spec: +2 per
original query token present as a substring of the lower-cased chunk text,
+1 per expanded-synonym token present, +1 when any financial-section
marker is present. -/
def specScore (expanded query_words : List String) (textLower : String) : Nat :=
  2 * (expanded.filter (fun w =>
        decide (w ∈ query_words) && strContains textLower w)).length
  + (expanded.filter (fun w =>
        !decide (w ∈ query_words) && strContains textLower w)).length
  + (if financial_sections.any (fun s => strContains textLower s) then 1 else 0)

/-- Description of retrieval per claim C3: score every chunk, discard the
zero scores, sort descending by raw score with stable tie-break by
insertion order, take the first `k`, and return each raw score divided by
`2*|expanded_tokens| + 1` (no clamping). -/
def specRetrieve (st : IndexerState) (query : String) (k : Nat) :
    List (String × String × ℚ) :=
  let query_words := pySplit (pyLower query)
  let expanded := expandQueryWords query_words
  let survivors := (st.documents.enum.map (fun p =>
      (p.1, p.2, specScore expanded query_words (pyLower p.2.text)))).filter
    (fun x => decide (0 < x.2.2))
  ((List.insertionSort rankLe survivors).take k).map (fun x =>
    (x.2.1.text, x.2.1.url, (x.2.2 : ℚ) / (2 * expanded.length + 1)))

theorem scoreDoc_eq_specScore (expanded query_words : List String)
    (t : String) : scoreDoc expanded query_words t =
      specScore expanded query_words t := by
  unfold scoreDoc specScore
  have hsum : ∀ l : List String,
      (l.map (fun w => if strContains t w then
        (if w ∈ query_words then 2 else 1) else 0)).sum =
      2 * (l.filter (fun w =>
        decide (w ∈ query_words) && strContains t w)).length +
      (l.filter (fun w =>
        !decide (w ∈ query_words) && strContains t w)).length := by
    intro l
    induction l with
    | nil => simp
    | cons w l ih =>
      by_cases h1 : strContains t w = true
      · by_cases h2 : w ∈ query_words
        · simp [List.filter_cons, h1, h2, ih]
          omega
        · simp [List.filter_cons, h1, h2, ih]
          omega
      · simp only [Bool.not_eq_true] at h1
        simp [List.filter_cons, h1, ih]
  rw [hsum]

theorem scoreDoc_le (expanded query_words : List String) (t : String) :
    scoreDoc expanded query_words t ≤ 2 * expanded.length + 1 := by
  unfold scoreDoc
  have h1 : (expanded.map (fun w => if strContains t w then
      (if w ∈ query_words then 2 else 1) else 0)).sum ≤
        (expanded.map (fun w : String => if strContains t w then
          (if w ∈ query_words then 2 else 1) else 0)).length • 2 := by
    apply List.sum_le_card_nsmul
    intro x hx
    rw [List.mem_map] at hx
    obtain ⟨w, -, rfl⟩ := hx
    by_cases h1 : strContains t w = true <;> by_cases h2 : w ∈ query_words <;>
      simp [h1, h2]
  rw [List.length_map, smul_eq_mul] at h1
  by_cases hb : financial_sections.any (fun s => strContains t s) = true <;>
    simp [hb] <;> omega

/-- C3: the lexical `retrieve` equals its spec-side description (the
spec-worded scoring, zero-score discard, stable descending sort, top-`k`,
and plain normalization by `2*|expanded_tokens|+1` — the min-with-1 clamp in the code
clamp never engages because a raw score cannot exceed the denominator);
every returned relevance score lies in `[0, 1]`; and the returned sequence
is ordered by nonincreasing relevance. -/
theorem C3_retrieve_lexical (st : IndexerState) (query : String) (k : Nat) :
    DocumentIndexer.retrieve st query k = specRetrieve st query k ∧
    (∀ r ∈ DocumentIndexer.retrieve st query k, 0 ≤ r.2.2 ∧ r.2.2 ≤ 1) ∧
    (DocumentIndexer.retrieve st query k).Pairwise
      (fun a b => b.2.2 ≤ a.2.2) := by
  have hD : (0 : ℚ) <
      2 * (expandQueryWords (pySplit (pyLower query))).length + 1 := by
    positivity
  by_cases hd : st.documents = []
  · refine ⟨?_, ?_, ?_⟩
    · simp [DocumentIndexer.retrieve, specRetrieve, hd]
    · simp [DocumentIndexer.retrieve, hd]
    · simp [DocumentIndexer.retrieve, hd]
  · have hmem_bound : ∀ x ∈ (List.insertionSort rankLe
        (scoredDocs st.documents (expandQueryWords (pySplit (pyLower query)))
          (pySplit (pyLower query)))).take k,
        x.2.2 ≤ 2 * (expandQueryWords (pySplit (pyLower query))).length + 1 := by
      intro x hx
      have hx2 := (List.perm_insertionSort rankLe _).mem_iff.1
        (List.mem_of_mem_take hx)
      rw [scoredDocs, List.mem_filter] at hx2
      obtain ⟨hx3, -⟩ := hx2
      rw [List.mem_map] at hx3
      obtain ⟨p, -, rfl⟩ := hx3
      exact scoreDoc_le _ _ _
    refine ⟨?_, ?_, ?_⟩
    · simp only [DocumentIndexer.retrieve, if_neg hd, specRetrieve]
      rw [show scoredDocs st.documents
            (expandQueryWords (pySplit (pyLower query)))
            (pySplit (pyLower query)) =
          (st.documents.enum.map (fun p =>
            (p.1, p.2, specScore (expandQueryWords (pySplit (pyLower query)))
              (pySplit (pyLower query)) (pyLower p.2.text)))).filter
            (fun x => decide (0 < x.2.2)) from by
        simp only [scoredDocs, scoreDoc_eq_specScore]]
      apply List.map_congr_left
      intro x hx
      have hle : (x.2.2 : ℚ) ≤
          2 * (expandQueryWords (pySplit (pyLower query))).length + 1 := by
        have h := hmem_bound x (by
          simpa only [scoredDocs, scoreDoc_eq_specScore] using hx)
        exact_mod_cast h
      rw [min_eq_left ((div_le_one hD).2 hle)]
    · intro r hr
      simp only [DocumentIndexer.retrieve, if_neg hd, List.mem_map] at hr
      obtain ⟨x, -, rfl⟩ := hr
      constructor
      · exact le_min (div_nonneg (by positivity) hD.le) zero_le_one
      · exact min_le_right _ _
    · simp only [DocumentIndexer.retrieve, if_neg hd]
      have hpair : ((List.insertionSort rankLe
          (scoredDocs st.documents
            (expandQueryWords (pySplit (pyLower query)))
            (pySplit (pyLower query)))).take k).Pairwise rankLe :=
        ((List.sorted_insertionSort rankLe _).sublist
          (List.take_sublist _ _))
      refine hpair.map _ ?_
      intro a b hab
      rcases hab with h | ⟨h, -⟩
      · exact min_le_min ((div_le_div_iff_of_pos_right hD).2 (by
          exact_mod_cast h.le)) le_rfl
      · exact le_of_eq (by rw [h])

/-- C3 witness: the retrieval theorem applied to a concrete one-chunk
index: the answer of the code coincides with the spec description, and the
returned relevance score is within bounds. -/
theorem C3_witness :
    DocumentIndexer.retrieve
        { chroma_dir := "d",
          documents := [{ chunk_id := "0_0", text := "Revenue grew.",
                          url := "u", document_id := 0, chunk_length := 13,
                          meta := [] }] } "revenue growth" 5 =
      specRetrieve
        { chroma_dir := "d",
          documents := [{ chunk_id := "0_0", text := "Revenue grew.",
                          url := "u", document_id := 0, chunk_length := 13,
                          meta := [] }] } "revenue growth" 5 :=
  (C3_retrieve_lexical _ "revenue growth" 5).1

/-! Claim C7 -/

/-- The ranked survivor list inside `retrieve` (indexer.py lines 144-168):
scored, zero-discarded, stably sorted by descending score. -/
def rankedFor (st : IndexerState) (query : String) :
    List (Nat × DocChunk × Nat) :=
  List.insertionSort rankLe (scoredDocs st.documents
    (expandQueryWords (pySplit (pyLower query))) (pySplit (pyLower query)))

/-- C7: for the lexical strategy, when the expanded query tokens occurring
in chunk `B` form a strict subset of those occurring in chunk `A` and the
financial-section bonus applies equally to both, the raw score of `A` strictly
exceeds that of `B`, and `A` never ranks below `B`: wherever both appear in the
ranked ordering, the position of `A` is strictly earlier. -/
theorem C7_monotonic (st : IndexerState) (query : String) (i j : Nat)
    (A B : DocChunk)
    (hsub : ∀ w ∈ expandQueryWords (pySplit (pyLower query)),
      strContains (pyLower B.text) w = true →
        strContains (pyLower A.text) w = true)
    (hstrict : ∃ w ∈ expandQueryWords (pySplit (pyLower query)),
      strContains (pyLower A.text) w = true ∧
        strContains (pyLower B.text) w = false)
    (hbonus : (financial_sections.any
        (fun s => strContains (pyLower A.text) s)) =
      (financial_sections.any (fun s => strContains (pyLower B.text) s))) :
    scoreDoc (expandQueryWords (pySplit (pyLower query)))
        (pySplit (pyLower query)) (pyLower A.text) >
      scoreDoc (expandQueryWords (pySplit (pyLower query)))
        (pySplit (pyLower query)) (pyLower B.text) ∧
    ∀ pA pB sA sB,
      (rankedFor st query).get? pA = some (i, A, sA) →
      (rankedFor st query).get? pB = some (j, B, sB) →
      pA < pB := by
  have hgt : scoreDoc (expandQueryWords (pySplit (pyLower query)))
      (pySplit (pyLower query)) (pyLower A.text) >
        scoreDoc (expandQueryWords (pySplit (pyLower query)))
          (pySplit (pyLower query)) (pyLower B.text) := by
    unfold scoreDoc
    rw [hbonus]
    have hsum : ((expandQueryWords (pySplit (pyLower query))).map
        (fun w => if strContains (pyLower B.text) w then
          (if w ∈ pySplit (pyLower query) then 2 else 1) else 0)).sum <
        ((expandQueryWords (pySplit (pyLower query))).map
        (fun w => if strContains (pyLower A.text) w then
          (if w ∈ pySplit (pyLower query) then 2 else 1) else 0)).sum := by
      apply List.sum_lt_sum
      · intro w hw
        by_cases hB : strContains (pyLower B.text) w = true
        · rw [hB, hsub w hw hB]
        · simp only [Bool.not_eq_true] at hB
          simp [hB]
      · obtain ⟨w, hw, hA, hB⟩ := hstrict
        refine ⟨w, hw, ?_⟩
        simp only [hA, hB]
        by_cases h2 : w ∈ pySplit (pyLower query) <;> simp [h2]
    omega
  refine ⟨hgt, fun pA pB sA sB hgA hgB => ?_⟩
  have hshape : ∀ (p : Nat) (d : DocChunk) (s : Nat),
      (p, d, s) ∈ rankedFor st query →
      s = scoreDoc (expandQueryWords (pySplit (pyLower query)))
        (pySplit (pyLower query)) (pyLower d.text) := by
    intro p d s hmem
    have h2 := (List.perm_insertionSort rankLe _).mem_iff.1 hmem
    rw [scoredDocs, List.mem_filter, List.mem_map] at h2
    obtain ⟨⟨q, -, hq⟩, -⟩ := h2
    injection hq with h1 hrest
    injection hrest with h2 h3
    rw [← h2]
    exact h3.symm
  have hsA : sA = scoreDoc (expandQueryWords (pySplit (pyLower query)))
      (pySplit (pyLower query)) (pyLower A.text) :=
    hshape i A sA (List.get?_mem hgA)
  have hsB : sB = scoreDoc (expandQueryWords (pySplit (pyLower query)))
      (pySplit (pyLower query)) (pyLower B.text) :=
    hshape j B sB (List.get?_mem hgB)
  have hss : sB < sA := by omega
  obtain ⟨hpA, hgetA⟩ := List.get?_eq_some.1 hgA
  obtain ⟨hpB, hgetB⟩ := List.get?_eq_some.1 hgB
  have hsorted : (rankedFor st query).Pairwise rankLe :=
    List.sorted_insertionSort rankLe _
  rcases Nat.lt_trichotomy pA pB with h | h | h
  · exact h
  · exfalso
    subst h
    rw [hgetA] at hgetB
    injection hgetB with h1 hrest
    injection hrest with h2 h3
    omega
  · exfalso
    have hrel := List.pairwise_iff_get.1 hsorted ⟨pB, hpB⟩ ⟨pA, hpA⟩ h
    rw [hgetA, hgetB] at hrel
    rcases hrel with h4 | ⟨h4, -⟩ <;> simp at h4 <;> omega

/-- Chunks for the C7 witness: the expanded tokens occurring in `c7A` strictly
contain those occurring in `c7B`, with an equal financial-section bonus. -/
def c7A : DocChunk :=
  { chunk_id := "0_1", text := "Revenue growth was strong.", url := "u",
    document_id := 0, chunk_length := 26, meta := [] }

def c7B : DocChunk :=
  { chunk_id := "0_0", text := "Revenue figures follow.", url := "u",
    document_id := 0, chunk_length := 23, meta := [] }

/-- C7 witness: the monotonicity theorem at a concrete two-chunk index and
the query "revenue growth": the superset chunk scores strictly higher and
precedes the subset chunk in the ranked order although it was inserted
later. -/
theorem C7_witness :
    scoreDoc (expandQueryWords (pySplit (pyLower "revenue growth")))
        (pySplit (pyLower "revenue growth")) (pyLower c7A.text) >
      scoreDoc (expandQueryWords (pySplit (pyLower "revenue growth")))
        (pySplit (pyLower "revenue growth")) (pyLower c7B.text) ∧
    (0 : Nat) < 1 := by
  constructor
  · exact (C7_monotonic { chroma_dir := "d", documents := [c7B, c7A] }
      "revenue growth" 1 0 c7A c7B (by decide) (by decide) (by decide)).1
  · exact (C7_monotonic { chroma_dir := "d", documents := [c7B, c7A] }
      "revenue growth" 1 0 c7A c7B (by decide) (by decide) (by decide)).2
      0 1 5 3 (by decide) (by decide)
